import Mathlib

/-!
Verification of the fire-dispatch scraper's reconciliation and resilience
engine against its natural-language specification.

The TypeScript source is shallowly embedded in Lean:

* `detectChanges` (src/utils/changeDetection.ts) becomes a pure Lean function
  over an `Alarm` record, a partial update, and two unit lists.
* The persistence layer (src/database/services/alarms.ts) becomes explicit
  state passing over a `DB` record holding alarm rows, unit-assignment rows
  and the known-unit registry; each Supabase query/update is translated to
  the corresponding pure list operation.
* One scan cycle (`AlarmScraper.scrapeAlarms`, src/scraper/alarmScraper.ts)
  becomes a fold over the list of already-extracted captured elements; the
  browser-automation extraction itself is out of scope, so a cycle's input is
  the list of `CapturedAlarm` values the extraction produced.
* `CircuitBreaker` and `RateLimiter` (src/services) become explicit state
  machines; `Date.now()` readings are passed in as natural-number instants,
  and the outcome of one external API attempt is passed in as data
  (`AttemptOutcome`), since the network is external.

Timestamps written to the database are ISO strings in the source; the model
passes the string produced by a cycle (or call) as a `now` parameter.
-/

/-- Alarm row, after src/database/types.ts `Alarm`.  Optional TS fields become
`Option String`; `id` is the database primary key. -/
structure Alarm where
  id : Nat
  dcid : String
  address : String
  alarm_timestamp : String
  alarm_type : String
  call_notes : Option String
  call_ai_notes : Option String
  call_timeline : Option String
  last_updated : String
deriving DecidableEq

/-- Partial alarm (TS `Partial<Alarm>`), restricted to the four scalar fields
`detectChanges` and `handleExistingAlarm` actually read from it.  `none`
models an absent (`undefined`) field. -/
structure PartialAlarm where
  address : Option String
  alarm_type : Option String
  call_notes : Option String
  call_timeline : Option String
deriving DecidableEq

/-- Unit-diff component of a change record, after `Changes.unitsChanged`. -/
structure UnitsChanged where
  added : List String
  removed : List String
deriving DecidableEq

/-- Change record, after `Changes` in src/utils/changeDetection.ts. -/
structure Changes where
  callTypeChanged : Bool
  addressChanged : Bool
  notesChanged : Bool
  timelineChanged : Bool
  unitsChanged : UnitsChanged
  hasAnyChanges : Bool
deriving DecidableEq

/-- JS truthiness of an optional string against a required string field:
`current.f && current.f !== existing.f` where `existing.f : string`.
An absent field and the empty string are both falsy. -/
def scalarChangedAgainst (incoming : Option String) (existingVal : String) : Bool :=
  match incoming with
  | none => false
  | some s => decide (s ≠ "") && decide (s ≠ existingVal)

/-- JS truthiness of an optional string against an optional string field:
`current.f && current.f !== existing.f` where `existing.f : string | undefined`
(`some s ≠ none` holds, matching `s !== undefined`). -/
def optScalarChangedAgainst (incoming existingVal : Option String) : Bool :=
  match incoming with
  | none => false
  | some s => decide (s ≠ "") && decide (some s ≠ existingVal)

/-- `detectChanges` from src/utils/changeDetection.ts, lines 19-82.  A scalar
field is flagged when the incoming value is truthy and differs; `added` and
`removed` are the two `filter`-based set differences of the unit lists;
`hasAnyChanges` is the disjunction computed at lines 74-79. -/
def detectChanges (existing : Alarm) (current : PartialAlarm)
    (existingUnits currentUnits : List String) : Changes :=
  let callTypeChanged := scalarChangedAgainst current.alarm_type existing.alarm_type
  let addressChanged := scalarChangedAgainst current.address existing.address
  let notesChanged := optScalarChangedAgainst current.call_notes existing.call_notes
  let timelineChanged := optScalarChangedAgainst current.call_timeline existing.call_timeline
  let added := currentUnits.filter (fun u => !(decide (u ∈ existingUnits)))
  let removed := existingUnits.filter (fun u => !(decide (u ∈ currentUnits)))
  { callTypeChanged := callTypeChanged
    addressChanged := addressChanged
    notesChanged := notesChanged
    timelineChanged := timelineChanged
    unitsChanged := { added := added, removed := removed }
    hasAnyChanges := callTypeChanged || addressChanged || notesChanged || timelineChanged
      || decide (0 < added.length) || decide (0 < removed.length) }

/-- Unit-assignment row, after src/database/types.ts `UnitAssignment`.
An assignment is active while `deassigned_at = none`. -/
structure UnitAssignment where
  alarm_id : Nat
  unit_id : String
  assigned_at : String
  deassigned_at : Option String
  is_external : Bool
deriving DecidableEq

/-- Persistence state: alarm rows, unit-assignment rows, and the `units`
table (the known-unit registry) reduced to its identifiers. -/
structure DB where
  alarms : List Alarm
  assignments : List UnitAssignment
  knownUnits : List String
deriving DecidableEq

/-- `AlarmService.getActiveUnits`: unit ids of rows of this alarm whose
`deassigned_at` is null. -/
def getActiveUnits (db : DB) (alarmId : Nat) : List String :=
  (db.assignments.filter fun a =>
    decide (a.alarm_id = alarmId) && decide (a.deassigned_at = none)).map (·.unit_id)

/-- `AlarmService.getAlarmByDcid`: first alarm row with this dcid. -/
def getAlarmByDcid (db : DB) (dcid : String) : Option Alarm :=
  db.alarms.find? fun a => decide (a.dcid = dcid)

/-- Update payload built by `handleExistingAlarm`: `last_updated` is always
present; a scalar field is present (`some`) exactly when it was flagged. -/
structure AlarmUpdates where
  last_updated : String
  alarm_type : Option String
  address : Option String
  call_notes : Option String
  call_timeline : Option String
deriving DecidableEq

/-- Patch semantics of a Supabase `update`: only the keys present in the
payload overwrite the row. -/
def applyAlarmUpdates (a : Alarm) (u : AlarmUpdates) : Alarm :=
  { a with
    last_updated := u.last_updated
    alarm_type := u.alarm_type.getD a.alarm_type
    address := u.address.getD a.address
    call_notes := match u.call_notes with | some s => some s | none => a.call_notes
    call_timeline := match u.call_timeline with | some s => some s | none => a.call_timeline }

/-- `AlarmService.updateAlarm`: patch every alarm row matching the id. -/
def updateAlarm (db : DB) (id : Nat) (u : AlarmUpdates) : DB :=
  { db with alarms := db.alarms.map fun a => if a.id = id then applyAlarmUpdates a u else a }

/-- Effect of the deassignment update on one row: close the row when it is
an active row of the given alarm, leave it unchanged otherwise. -/
def closeActiveRow (alarmId : Nat) (now : String) (a : UnitAssignment) : UnitAssignment :=
  if a.alarm_id = alarmId ∧ a.deassigned_at = none then
    { a with deassigned_at := some now } else a

/-- `AlarmService.deassignAllUnits`: re-check for active rows of the alarm;
if none, return unchanged (the source returns `true` without a write);
otherwise set `deassigned_at` on every still-active row of the alarm. -/
def deassignAllUnits (db : DB) (alarmId : Nat) (now : String) : DB :=
  let activeUnits := getActiveUnits db alarmId
  if activeUnits = [] then db
  else { db with assignments := db.assignments.map (closeActiveRow alarmId now) }

/-- `AlarmService.updateUnitAssignments` (src/database/services/alarms.ts,
lines 180-278): deactivate units that disappeared, then reactivate
previously-closed rows for returning units, then insert rows for genuinely
new units, marking a new row external when its unit id is not in the known
registry.  The deactivate and reactivate updates filter on alarm id and unit
id exactly as the source queries do (neither adds a null check on
`deassigned_at`). -/
def updateUnitAssignmentsRows (db : DB) (alarmId : Nat) (currentUnits : List String)
    (now : String) : List UnitAssignment :=
  let existingUnits := getActiveUnits db alarmId
  let unitsToDeactivate := existingUnits.filter fun u => !(decide (u ∈ currentUnits))
  let unitsToAdd := currentUnits.filter fun u => !(decide (u ∈ existingUnits))
  let knownUnitIds := db.knownUnits.filter fun u => decide (u ∈ currentUnits)
  let rows1 :=
    if unitsToDeactivate ≠ [] then
      db.assignments.map fun a =>
        if a.alarm_id = alarmId ∧ a.unit_id ∈ unitsToDeactivate then
          { a with deassigned_at := some now } else a
    else db.assignments
  if unitsToAdd ≠ [] then
    let unitsToReactivate : List String := (rows1.filter fun a =>
        decide (a.alarm_id = alarmId) && decide (a.unit_id ∈ unitsToAdd) &&
        decide (a.deassigned_at ≠ none)).map (·.unit_id)
    let unitsToCreate := unitsToAdd.filter fun u => !(decide (u ∈ unitsToReactivate))
    let rows2 :=
      if unitsToReactivate ≠ [] then
        rows1.map fun a =>
          if a.alarm_id = alarmId ∧ a.unit_id ∈ unitsToReactivate then
            { a with assigned_at := now, deassigned_at := none } else a
      else rows1
    if unitsToCreate ≠ [] then
      rows2 ++ unitsToCreate.map fun u =>
        { alarm_id := alarmId, unit_id := u, assigned_at := now, deassigned_at := none,
          is_external := !(decide (u ∈ knownUnitIds)) }
    else rows2
  else rows1

/-- The three sequential `units_assigned` writes only replace the assignment
table; the rest of the database is untouched. -/
def updateUnitAssignments (db : DB) (alarmId : Nat) (currentUnits : List String)
    (now : String) : DB :=
  { db with assignments := updateUnitAssignmentsRows db alarmId currentUnits now }

/-- `AlarmService.createUnitAssignments`: insert an active row per unit,
external iff absent from the known registry. -/
def createUnitAssignments (db : DB) (alarmId : Nat) (units : List String)
    (now : String) : DB :=
  let knownUnitIds := db.knownUnits.filter fun u => decide (u ∈ units)
  { db with assignments := db.assignments ++ units.map fun u =>
      { alarm_id := alarmId, unit_id := u, assigned_at := now, deassigned_at := none,
        is_external := !(decide (u ∈ knownUnitIds)) } }

/-- Fresh primary key for an inserted alarm row (the source receives it from
the database insert). -/
def freshAlarmId (db : DB) : Nat :=
  db.alarms.foldl (fun m a => max m a.id) 0 + 1

/-- Guard of the alarm-row write at line 406 of alarmScraper.ts: some scalar
field was flagged changed. -/
def scalarFlagged (ch : Changes) : Bool :=
  ch.callTypeChanged || ch.addressChanged || ch.notesChanged || ch.timelineChanged

/-- `AlarmScraper.handleExistingAlarm` (src/scraper/alarmScraper.ts, lines
371-426): run `detectChanges` against the active unit set; when anything
changed, build an update payload carrying `last_updated` plus exactly the
flagged scalar fields, but write the alarm row only when some scalar flag is
set (line 406), and touch unit assignments only when the unit diff is
non-empty (line 411). -/
def handleExistingAlarm (db : DB) (existingAlarm : Alarm) (newData : PartialAlarm)
    (units : List String) (now : String) : DB :=
  let activeUnits := getActiveUnits db existingAlarm.id
  let changes := detectChanges existingAlarm newData activeUnits units
  if changes.hasAnyChanges then
    let db1 :=
      if scalarFlagged changes then
        updateAlarm db existingAlarm.id
          { last_updated := now
            alarm_type := if changes.callTypeChanged then newData.alarm_type else none
            address := if changes.addressChanged then newData.address else none
            call_notes := if changes.notesChanged then newData.call_notes else none
            call_timeline := if changes.timelineChanged then newData.call_timeline else none }
      else db
    if changes.unitsChanged.added ≠ [] ∨ changes.unitsChanged.removed ≠ [] then
      updateUnitAssignments db1 existingAlarm.id units now
    else db1
  else db

/-- One successfully extracted dispatch-board element, after the extraction
phase of `AlarmScraper.extractAlarm` has applied its defaults (address and
call type fall back to sentinel values, so they are plain strings; notes and
timeline come from the detail fetch and may be absent). -/
structure CapturedAlarm where
  dcid : String
  address : String
  alarm_timestamp : String
  alarm_type : String
  call_notes : Option String
  call_timeline : Option String
  units : List String
deriving DecidableEq

/-- `currentData` object built at lines 327-332 of alarmScraper.ts for the
comparison against an existing alarm. -/
def capturedPartial (c : CapturedAlarm) : PartialAlarm :=
  { address := some c.address
    alarm_type := some c.alarm_type
    call_notes := c.call_notes
    call_timeline := c.call_timeline }

/-- Persistence effect of `AlarmScraper.extractAlarm` on one captured
element: update the existing alarm when the dcid is known, otherwise insert
a new alarm row and its unit assignments.  Returns the dcid recorded in
`scrapedDcids`.  The fire-and-forget enrichment dispatched inside
`createAlarm` runs detached from the cycle and is modelled separately by
`transformCallerNotes`. -/
def processCaptured (db : DB) (c : CapturedAlarm) (now : String) : DB × Option String :=
  match getAlarmByDcid db c.dcid with
  | some existingAlarm =>
      (handleExistingAlarm db existingAlarm (capturedPartial c) c.units now,
        some existingAlarm.dcid)
  | none =>
      let alarmId := freshAlarmId db
      let newAlarm : Alarm :=
        { id := alarmId, dcid := c.dcid, address := c.address,
          alarm_timestamp := c.alarm_timestamp, alarm_type := c.alarm_type,
          call_notes := c.call_notes, call_ai_notes := none,
          call_timeline := c.call_timeline, last_updated := now }
      let db1 := { db with alarms := db.alarms ++ [newAlarm] }
      let db2 := if c.units ≠ [] then createUnitAssignments db1 alarmId c.units now else db1
      (db2, some c.dcid)

/-- `AlarmService.getActiveAlarms`: alarm rows having at least one active
unit assignment (the `alarm_details` view filtered to non-empty
`current_units`). -/
def getActiveAlarms (db : DB) : List Alarm :=
  db.alarms.filter fun a => !(decide (getActiveUnits db a.id = []))

/-- `AlarmScraper.processRemovedAlarm` (lines 497-515): re-verify with a
direct active-unit query and deassign only when that re-check still shows
active units. -/
def processRemovedAlarm (db : DB) (alarmId : Nat) (now : String) : DB :=
  let activeUnits := getActiveUnits db alarmId
  if activeUnits = [] then db
  else deassignAllUnits db alarmId now

/-- One scan cycle, `AlarmScraper.scrapeAlarms` (lines 428-492): read the
before set, early-return deassigning everything when the board is empty,
otherwise process each captured element and finally deassign the before-set
alarms whose dcid was not recorded this cycle. -/
def scrapeAlarms (db : DB) (captured : List CapturedAlarm) (now : String) : DB :=
  let dbActiveAlarms := getActiveAlarms db
  if captured.isEmpty then
    dbActiveAlarms.foldl (fun d a => processRemovedAlarm d a.id now) db
  else
    let afterScan := captured.foldl
      (fun (p : DB × List String) c =>
        let r := processCaptured p.1 c now
        (r.1, p.2 ++ r.2.toList))
      (db, [])
    let removedAlarms := dbActiveAlarms.filter fun a => !(decide (a.dcid ∈ afterScan.2))
    removedAlarms.foldl (fun d a => processRemovedAlarm d a.id now) afterScan.1

/-- A captured element agrees with the persisted state: its dcid resolves to
an alarm row whose scalar fields equal the captured ones and whose active
unit set equals the captured unit set (as sets; stated through `List.all` so
the predicate is decidable on concrete inputs). -/
def capturedMatchesDb (db : DB) (c : CapturedAlarm) : Prop :=
  ∃ a ∈ db.alarms, getAlarmByDcid db c.dcid = some a ∧ c.address = a.address ∧
    c.alarm_type = a.alarm_type ∧ c.call_notes = a.call_notes ∧
    c.call_timeline = a.call_timeline ∧
    c.units.all (fun u => decide (u ∈ getActiveUnits db a.id)) = true ∧
    (getActiveUnits db a.id).all (fun u => decide (u ∈ c.units)) = true

/-- Circuit-breaker states, after `CircuitState` in
src/services/circuitBreaker.ts. -/
inductive CircuitState where
  | CLOSED
  | OPEN
  | HALF_OPEN
deriving DecidableEq

/-- Mutable state of `CircuitBreaker`; times are `Date.now()` milliseconds. -/
structure CircuitBreaker where
  state : CircuitState
  failureCount : Nat
  lastFailureTime : Nat
deriving DecidableEq

/-- Field initializers of the `CircuitBreaker` class. -/
def circuitBreakerInit : CircuitBreaker :=
  { state := CircuitState.CLOSED, failureCount := 0, lastFailureTime := 0 }

/-- `CircuitBreaker.recordFailure`. -/
def recordFailure (b : CircuitBreaker) (now : Nat) : CircuitBreaker :=
  { b with failureCount := b.failureCount + 1, lastFailureTime := now }

/-- `CircuitBreaker.openCircuit`. -/
def openCircuit (b : CircuitBreaker) : CircuitBreaker :=
  { b with state := CircuitState.OPEN }

/-- `CircuitBreaker.closeCircuit`: state to CLOSED and failure count to
zero (the last-failure time is not touched). -/
def closeCircuit (b : CircuitBreaker) : CircuitBreaker :=
  { b with state := CircuitState.CLOSED, failureCount := 0 }

/-- Try/catch body of `executeWithCircuitBreaker`: the awaited operation
either produced a value (`some`) or threw (`none`).  On success the circuit
closes when half-open; on failure the failure is recorded and the circuit
opens only when it was CLOSED and the count reached the threshold. -/
def attemptOperation {T : Type} (failureThreshold : Nat) (b : CircuitBreaker) (now : Nat)
    (opResult : Option T) (fallback : T) : T × CircuitBreaker :=
  match opResult with
  | some t => (t, if b.state = CircuitState.HALF_OPEN then closeCircuit b else b)
  | none =>
      let b1 := recordFailure b now
      let b2 :=
        if b1.state = CircuitState.CLOSED ∧ failureThreshold ≤ b1.failureCount then
          openCircuit b1
        else b1
      (fallback, b2)

/-- `CircuitBreaker.executeWithCircuitBreaker` (src/services/circuitBreaker.ts,
lines 241-277 of the concatenated service file): an OPEN circuit whose
cooldown has not elapsed returns the fallback without attempting; an OPEN
circuit past the cooldown flips to HALF_OPEN and attempts; otherwise the
operation is attempted directly.  The third component records whether the
operation was attempted. -/
def executeWithCircuitBreaker {T : Type} (failureThreshold resetTimeoutMs : Nat)
    (b : CircuitBreaker) (now : Nat) (opResult : Option T) (fallback : T) :
    T × CircuitBreaker × Bool :=
  if b.state = CircuitState.OPEN then
    if resetTimeoutMs ≤ now - b.lastFailureTime then
      let r := attemptOperation failureThreshold
        { b with state := CircuitState.HALF_OPEN } now opResult fallback
      (r.1, r.2, true)
    else (fallback, b, false)
  else
    let r := attemptOperation failureThreshold b now opResult fallback
    (r.1, r.2, true)

/-- A sequence of calls whose operations all throw, at the given instants. -/
def runFailureCalls (failureThreshold resetTimeoutMs : Nat) (b : CircuitBreaker)
    (times : List Nat) : CircuitBreaker :=
  times.foldl (fun b now =>
    (executeWithCircuitBreaker failureThreshold resetTimeoutMs b now
      (none : Option Unit) ()).2.1) b

/-- Mutable state of `RateLimiter` (src/services/rateLimiter.ts). -/
structure RateLimiter where
  requestTimestamps : List Nat
  requestsPerMinute : Nat
deriving DecidableEq

/-- Timestamps surviving the pruning at the top of `waitForPermission`:
those younger than the 60-second window. -/
def retainedTimestamps (rl : RateLimiter) (now : Nat) : List Nat :=
  rl.requestTimestamps.filter fun t => decide (now - t < 60000)

/-- `RateLimiter.waitForPermission`: prune, then if at or above the limit
wait `60000 - (now - oldest) + 100` milliseconds (the source checks
`waitTime > 0` before sleeping; within this branch the wait is always
positive), then push the post-sleep `Date.now()` reading, modelled as
`now + waitTime`.  Returns the wait duration and the new state. -/
def waitForPermission (rl : RateLimiter) (now : Nat) : Nat × RateLimiter :=
  let retained := retainedTimestamps rl now
  let waitTime :=
    if rl.requestsPerMinute ≤ retained.length then
      60000 - (now - retained.headD 0) + 100
    else 0
  (waitTime, { rl with requestTimestamps := retained ++ [now + waitTime] })

/-- `RateLimiter.resetLimiter`. -/
def resetLimiter (rl : RateLimiter) : RateLimiter :=
  { rl with requestTimestamps := [] }

/-- Outcome of one awaited OpenAI completion attempt: a response with
content, a response with empty content, or a thrown error classified by
`isRetryableError` together with whether it carried HTTP status 429. -/
inductive AttemptOutcome where
  | ok (text : String)
  | okEmpty
  | err (retryable : Bool) (rateLimited : Bool)
deriving DecidableEq

/-- An outcome on which the retry loop may continue: a retryable error. -/
def isRetryErr : AttemptOutcome → Bool
  | .err true _ => true
  | _ => false

/-- Retry loop inside `OpenAIService.transformCallerNotes` (lines 44-185):
each attempt first awaits the rate limiter (at the instant paired with the
outcome), then either returns the transformed text, returns the original
notes on empty content, retries on a retryable error while the retry budget
allows (resetting the limiter after a 429), or returns the original notes.
The loop in the source only terminates through one of these returns; the
nil case is reachable only when fewer outcomes are supplied than the loop
would consume. -/
def retryLoop (maxRetries : Nat) (notes : String) :
    Nat → RateLimiter → List (Nat × AttemptOutcome) → String × RateLimiter
  | _, rl, [] => (notes, rl)
  | retryCount, rl, (now, o) :: rest =>
    let rl1 := (waitForPermission rl now).2
    match o with
    | .ok t => (t, rl1)
    | .okEmpty => (notes, rl1)
    | .err retryable rateLimited =>
      if retryable ∧ retryCount < maxRetries then
        retryLoop maxRetries notes (retryCount + 1)
          (if rateLimited then resetLimiter rl1 else rl1) rest
      else (notes, rl1)

/-- `OpenAIService.transformCallerNotes` (lines 33-193): empty notes return
null before any resilience machinery is consulted; otherwise the retry loop
runs as the circuit breaker's operation (it never throws) with a fallback
returning the original notes.  The result carries the returned text, the
breaker state, the limiter state, and whether the operation was attempted.
The prompt construction (including the "Call Notes:" label stripping, which
only affects the payload sent to the external service) is part of the
unmodelled external call. -/
def transformCallerNotes (maxRetries failureThreshold resetTimeoutMs : Nat)
    (b : CircuitBreaker) (rl : RateLimiter) (now : Nat) (notes : String)
    (attempts : List (Nat × AttemptOutcome)) :
    Option String × CircuitBreaker × RateLimiter × Bool :=
  if notes = "" then (none, b, rl, false)
  else
    let r := executeWithCircuitBreaker failureThreshold resetTimeoutMs b now
      (some (retryLoop maxRetries notes 0 rl attempts)) (notes, rl)
    (some r.1.1, r.2.1, r.1.2, r.2.2)

/-- Claim C1: `detectChanges` flags a scalar field (alarm_type, address,
call_notes, call_timeline) as changed iff the incoming value is
non-empty/non-null and differs by value from the existing one; `added` is
exactly the set of current units not among existing units and `removed`
exactly the set of existing units not among current units; `hasAnyChanges`
holds iff some scalar flag is true or `added` or `removed` is non-empty. -/
theorem detectChanges_characterization (existing : Alarm) (current : PartialAlarm)
    (existingUnits currentUnits : List String) :
    let ch := detectChanges existing current existingUnits currentUnits
    (ch.callTypeChanged = true ↔
      ∃ s, current.alarm_type = some s ∧ s ≠ "" ∧ s ≠ existing.alarm_type) ∧
    (ch.addressChanged = true ↔
      ∃ s, current.address = some s ∧ s ≠ "" ∧ s ≠ existing.address) ∧
    (ch.notesChanged = true ↔
      ∃ s, current.call_notes = some s ∧ s ≠ "" ∧ some s ≠ existing.call_notes) ∧
    (ch.timelineChanged = true ↔
      ∃ s, current.call_timeline = some s ∧ s ≠ "" ∧ some s ≠ existing.call_timeline) ∧
    (∀ u, u ∈ ch.unitsChanged.added ↔ u ∈ currentUnits ∧ u ∉ existingUnits) ∧
    (∀ u, u ∈ ch.unitsChanged.removed ↔ u ∈ existingUnits ∧ u ∉ currentUnits) ∧
    (ch.hasAnyChanges = true ↔
      ch.callTypeChanged = true ∨ ch.addressChanged = true ∨ ch.notesChanged = true ∨
      ch.timelineChanged = true ∨ ch.unitsChanged.added ≠ [] ∨
      ch.unitsChanged.removed ≠ []) := by
  refine ⟨?_, ?_, ?_, ?_, ?_, ?_, ?_⟩
  · cases h : current.alarm_type <;>
      simp [detectChanges, scalarChangedAgainst, h]
  · cases h : current.address <;>
      simp [detectChanges, scalarChangedAgainst, h]
  · cases h : current.call_notes <;>
      simp [detectChanges, optScalarChangedAgainst, h]
  · cases h : current.call_timeline <;>
      simp [detectChanges, optScalarChangedAgainst, h]
  · intro u
    simp [detectChanges, List.mem_filter]
  · intro u
    simp [detectChanges, List.mem_filter]
  · simp only [detectChanges, Bool.or_eq_true, decide_eq_true_eq, List.length_pos]
    tauto

/-- Helper: when the alarm has no active rows, closing its active rows is the
identity on the assignment table. -/
theorem map_closeActiveRow_of_no_active (db : DB) (alarmId : Nat) (now : String)
    (h : getActiveUnits db alarmId = []) :
    db.assignments.map (closeActiveRow alarmId now) = db.assignments := by
  have hfilter : db.assignments.filter (fun a =>
      decide (a.alarm_id = alarmId) && decide (a.deassigned_at = none)) = [] := by
    have := h
    unfold getActiveUnits at this
    exact List.map_eq_nil_iff.mp this
  have hnone := List.filter_eq_nil_iff.mp hfilter
  have hpt : ∀ a ∈ db.assignments, closeActiveRow alarmId now a = id a := by
    intro a ha
    have := hnone a ha
    simp only [Bool.and_eq_true, decide_eq_true_eq, not_and] at this
    unfold closeActiveRow
    by_cases h1 : a.alarm_id = alarmId
    · have h2 := this h1
      simp [h1, h2]
    · simp [h1]
  rw [List.map_congr_left hpt, List.map_id]

/-- Helper: `processRemovedAlarm` always equals the pointwise closing of the
alarm's active rows (the no-active early return coincides with the identity
map). -/
theorem processRemovedAlarm_eq (db : DB) (alarmId : Nat) (now : String) :
    processRemovedAlarm db alarmId now =
      { db with assignments := db.assignments.map (closeActiveRow alarmId now) } := by
  unfold processRemovedAlarm deassignAllUnits
  by_cases h : getActiveUnits db alarmId = []
  · simp only [h, if_pos rfl, if_true]
    rw [map_closeActiveRow_of_no_active db alarmId now h]
  · simp [h]

/-- Helper: folding `processRemovedAlarm` over a list of alarms closes
exactly the active rows whose alarm id occurs in the list. -/
theorem foldl_processRemovedAlarm (now : String) : ∀ (L : List Alarm) (db : DB),
    L.foldl (fun d a => processRemovedAlarm d a.id now) db =
      { db with assignments := db.assignments.map fun a =>
          if a.alarm_id ∈ L.map Alarm.id ∧ a.deassigned_at = none then
            { a with deassigned_at := some now } else a } := by
  intro L
  induction L with
  | nil =>
    intro db
    simp
  | cons x L ih =>
    intro db
    rw [List.foldl_cons, processRemovedAlarm_eq, ih]
    congr 1
    rw [List.map_map]
    apply List.map_congr_left
    intro a _
    by_cases h1 : a.alarm_id = x.id <;> by_cases h2 : a.deassigned_at = none <;>
      simp [closeActiveRow, h1, h2, Function.comp, List.mem_cons]

/-- Claim C2: when capture yields zero elements, the cycle only closes
assignments: every previously active assignment (all of which belong to
before-set alarms, by the foreign-key hypothesis) is closed with the cycle's
timestamp, already-closed assignments and all alarm rows are untouched, and
no element is processed. -/
theorem scrapeAlarms_empty_board (db : DB) (now : String)
    (hwf : ∀ a ∈ db.assignments, a.alarm_id ∈ db.alarms.map Alarm.id) :
    scrapeAlarms db [] now =
      { db with assignments := db.assignments.map fun a =>
          if a.deassigned_at = none then { a with deassigned_at := some now } else a } := by
  unfold scrapeAlarms
  simp only [List.isEmpty_nil, if_true]
  rw [foldl_processRemovedAlarm]
  congr 1
  apply List.map_congr_left
  intro a ha
  by_cases h2 : a.deassigned_at = none
  · have hmemb : a.alarm_id ∈ (getActiveAlarms db).map Alarm.id := by
      have hin := hwf a ha
      obtain ⟨b, hb, hbid⟩ := List.mem_map.mp hin
      refine List.mem_map.mpr ⟨b, ?_, hbid⟩
      unfold getActiveAlarms
      refine List.mem_filter.mpr ⟨hb, ?_⟩
      have hne : getActiveUnits db b.id ≠ [] := by
        intro hempty
        have hmm : a.unit_id ∈ getActiveUnits db b.id := by
          unfold getActiveUnits
          refine List.mem_map.mpr ⟨a, List.mem_filter.mpr ⟨ha, ?_⟩, rfl⟩
          simp [hbid, h2]
        rw [hempty] at hmm
        exact absurd hmm (List.not_mem_nil _)
      simpa using hne
    simp [h2, hmemb]
  · simp [h2]

/-- Witness for C2 at a concrete database with one active alarm. -/
theorem scrapeAlarms_empty_board_witness :
    scrapeAlarms ⟨[⟨1, "123", "A", "T0", "Fire", none, none, none, "T0"⟩],
        [⟨1, "E1", "T0", none, false⟩], ["E1"]⟩ [] "T1" =
      ⟨[⟨1, "123", "A", "T0", "Fire", none, none, none, "T0"⟩],
        [⟨1, "E1", "T0", some "T1", false⟩], ["E1"]⟩ := by
  have h := scrapeAlarms_empty_board
    ⟨[⟨1, "123", "A", "T0", "Fire", none, none, none, "T0"⟩],
      [⟨1, "E1", "T0", none, false⟩], ["E1"]⟩ "T1" (by decide)
  exact h.trans (by decide)

/-- Helper: an incoming scalar equal to the existing scalar is never
flagged. -/
theorem scalarChangedAgainst_self (s : String) : scalarChangedAgainst (some s) s = false := by
  simp [scalarChangedAgainst]

/-- Helper: an incoming optional scalar equal to the existing one is never
flagged. -/
theorem optScalarChangedAgainst_self (o : Option String) :
    optScalarChangedAgainst o o = false := by
  cases o <;> simp [optScalarChangedAgainst]

/-- Helper: `handleExistingAlarm` is the identity when the captured element
matches the persisted alarm field-for-field and unit-set-for-unit-set. -/
theorem handleExistingAlarm_self (db : DB) (a : Alarm) (c : CapturedAlarm) (now : String)
    (haddr : c.address = a.address) (htype : c.alarm_type = a.alarm_type)
    (hnotes : c.call_notes = a.call_notes) (htl : c.call_timeline = a.call_timeline)
    (hsub1 : ∀ u ∈ c.units, u ∈ getActiveUnits db a.id)
    (hsub2 : ∀ u ∈ getActiveUnits db a.id, u ∈ c.units) :
    handleExistingAlarm db a (capturedPartial c) c.units now = db := by
  have hadd : c.units.filter (fun u => !(decide (u ∈ getActiveUnits db a.id))) = [] := by
    rw [List.filter_eq_nil_iff]
    intro u hu
    simp [hsub1 u hu]
  have hrem : (getActiveUnits db a.id).filter (fun u => !(decide (u ∈ c.units))) = [] := by
    rw [List.filter_eq_nil_iff]
    intro u hu
    simp [hsub2 u hu]
  have hch : (detectChanges a (capturedPartial c) (getActiveUnits db a.id)
      c.units).hasAnyChanges = false := by
    simp only [detectChanges, capturedPartial, htype, haddr, hnotes, htl, hadd, hrem,
      scalarChangedAgainst_self, optScalarChangedAgainst_self, List.length_nil]
    simp
  simp [handleExistingAlarm, hch]

/-- Helper: processing a captured element that matches the database is a
no-op that records the element's dcid. -/
theorem processCaptured_self (db : DB) (c : CapturedAlarm) (now : String)
    (h : capturedMatchesDb db c) :
    processCaptured db c now = (db, some c.dcid) := by
  obtain ⟨a, _hmem, hfind, haddr, htype, hnotes, htl, hall1, hall2⟩ := h
  have hdcid : a.dcid = c.dcid := by
    have hp := List.find?_some hfind
    simpa using hp
  have hsub1 : ∀ u ∈ c.units, u ∈ getActiveUnits db a.id := by
    simpa using hall1
  have hsub2 : ∀ u ∈ getActiveUnits db a.id, u ∈ c.units := by
    simpa using hall2
  unfold processCaptured
  rw [hfind]
  show (handleExistingAlarm db a (capturedPartial c) c.units now, some a.dcid) =
    (db, some c.dcid)
  rw [handleExistingAlarm_self db a c now haddr htype hnotes htl hsub1 hsub2, hdcid]

/-- Helper: the per-element fold of a matching capture set leaves the
database unchanged and records exactly the captured dcids. -/
theorem foldl_processCaptured_self (now : String) : ∀ (cs : List CapturedAlarm) (db : DB)
    (acc : List String), (∀ c ∈ cs, capturedMatchesDb db c) →
    cs.foldl (fun (p : DB × List String) c =>
        let r := processCaptured p.1 c now
        (r.1, p.2 ++ r.2.toList)) (db, acc)
      = (db, acc ++ cs.map CapturedAlarm.dcid) := by
  intro cs
  induction cs with
  | nil =>
    intro db acc _
    simp
  | cons c cs ih =>
    intro db acc h
    rw [List.foldl_cons]
    have hc := processCaptured_self db c now (h c (List.mem_cons_self c cs))
    show List.foldl _ ((processCaptured db c now).1,
      acc ++ (processCaptured db c now).2.toList) cs = _
    rw [hc]
    show List.foldl _ (db, acc ++ [c.dcid]) cs = _
    rw [ih db (acc ++ [c.dcid]) (fun c2 hc2 => h c2 (List.mem_cons_of_mem c hc2))]
    simp

/-- Claim C3: a scan cycle whose captured set agrees with the persisted
state (same dcids, same scalar values, same per-alarm active unit sets, and
every before-set alarm captured) performs zero persistence mutations. -/
theorem scrapeAlarms_idempotent (db : DB) (captured : List CapturedAlarm) (now : String)
    (h1 : ∀ c ∈ captured, capturedMatchesDb db c)
    (h2 : ∀ a ∈ getActiveAlarms db, ∃ c ∈ captured, c.dcid = a.dcid) :
    scrapeAlarms db captured now = db := by
  cases captured with
  | nil =>
    have hact : getActiveAlarms db = [] := by
      by_contra hne
      obtain ⟨x, hx⟩ := List.exists_mem_of_ne_nil _ hne
      obtain ⟨c, hc, _⟩ := h2 x hx
      exact absurd hc (List.not_mem_nil c)
    simp [scrapeAlarms, hact]
  | cons c0 cs =>
    have hfold := foldl_processCaptured_self now (c0 :: cs) db [] h1
    have hrem : (getActiveAlarms db).filter
        (fun a => !(decide (a.dcid ∈ (c0 :: cs).map CapturedAlarm.dcid))) = [] := by
      rw [List.filter_eq_nil_iff]
      intro a ha
      obtain ⟨c, hc, hcd⟩ := h2 a ha
      have hmm : a.dcid ∈ (c0 :: cs).map CapturedAlarm.dcid :=
        List.mem_map.mpr ⟨c, hc, hcd⟩
      intro hf
      rw [Bool.not_eq_true', decide_eq_false_iff_not] at hf
      exact hf hmm
    simp only [scrapeAlarms, List.isEmpty_cons, Bool.false_eq_true, if_false, hfold,
      List.nil_append, hrem, List.foldl_nil]

/-- Witness for C3: the one-alarm database of the C2 witness reconciled
against a capture set equal to it. -/
theorem scrapeAlarms_idempotent_witness :
    scrapeAlarms ⟨[⟨1, "123", "A", "T0", "Fire", none, none, none, "T0"⟩],
        [⟨1, "E1", "T0", none, false⟩], ["E1"]⟩
      [⟨"123", "A", "T0", "Fire", none, none, ["E1"]⟩] "T1" =
      ⟨[⟨1, "123", "A", "T0", "Fire", none, none, none, "T0"⟩],
        [⟨1, "E1", "T0", none, false⟩], ["E1"]⟩ := by
  refine scrapeAlarms_idempotent _ _ _ ?_ ?_
  · simp only [capturedMatchesDb]
    decide
  · decide

/-- Claim C9: an alarm in the before set that was not seen this cycle is
re-verified with a direct active-assignment query; its alarm row and the
registry are never touched, a clean re-check makes the whole step a no-op,
and otherwise every active row of the alarm is closed (so every row of the
alarm ends with a non-null deassigned timestamp) while rows of other alarms
survive unchanged. -/
theorem processRemovedAlarm_spec (db : DB) (alarmId : Nat) (now : String) :
    (processRemovedAlarm db alarmId now).alarms = db.alarms ∧
    (processRemovedAlarm db alarmId now).knownUnits = db.knownUnits ∧
    (getActiveUnits db alarmId = [] → processRemovedAlarm db alarmId now = db) ∧
    (getActiveUnits db alarmId ≠ [] →
      (processRemovedAlarm db alarmId now).assignments =
        db.assignments.map (closeActiveRow alarmId now) ∧
      ∀ row ∈ (processRemovedAlarm db alarmId now).assignments,
        row.alarm_id = alarmId → row.deassigned_at ≠ none) ∧
    (∀ row ∈ db.assignments, row.alarm_id ≠ alarmId →
      row ∈ (processRemovedAlarm db alarmId now).assignments) := by
  have he := processRemovedAlarm_eq db alarmId now
  refine ⟨by rw [he], by rw [he], ?_, ?_, ?_⟩
  · intro h
    rw [he, map_closeActiveRow_of_no_active db alarmId now h]
  · intro _
    refine ⟨by rw [he], ?_⟩
    intro row hrow hid
    rw [he] at hrow
    obtain ⟨pre, hpre, heq⟩ := List.mem_map.mp hrow
    subst heq
    by_cases h2 : pre.deassigned_at = none
    · have hidp : pre.alarm_id = alarmId := by
        by_cases h1 : pre.alarm_id = alarmId
        · exact h1
        · exfalso
          have : closeActiveRow alarmId now pre = pre := by
            unfold closeActiveRow
            simp [h1]
          rw [this] at hid
          exact h1 hid
      unfold closeActiveRow
      simp [hidp, h2]
    · have : closeActiveRow alarmId now pre = pre := by
        unfold closeActiveRow
        simp [h2]
      rw [this]
      exact h2
  · intro row hrow hne
    rw [he]
    have hcl : closeActiveRow alarmId now row = row := by
      unfold closeActiveRow
      simp [hne]
    have hm := List.mem_map_of_mem (closeActiveRow alarmId now) hrow
    rwa [hcl] at hm

/-- Witness for C9: the re-check finds an active row, so the row is closed
with the cycle timestamp. -/
theorem processRemovedAlarm_spec_witness :
    (processRemovedAlarm ⟨[⟨1, "123", "A", "T0", "Fire", none, none, none, "T0"⟩],
        [⟨1, "E1", "T0", none, false⟩], ["E1"]⟩ 1 "T1").assignments =
      ([⟨1, "E1", "T0", none, false⟩] : List UnitAssignment).map (closeActiveRow 1 "T1") :=
  ((processRemovedAlarm_spec ⟨[⟨1, "123", "A", "T0", "Fire", none, none, none, "T0"⟩],
      [⟨1, "E1", "T0", none, false⟩], ["E1"]⟩ 1 "T1").2.2.2.1 (by decide)).1

/-- Counterexample for C4: a cycle change consisting only of a unit-set diff
(unit "L2" newly assigned, scalar fields identical) sets `hasAnyChanges`,
mutates the assignment table, yet leaves the alarm row — including
`last_updated`, still "T0" — untouched, because the alarm-row write at line
406 of alarmScraper.ts is guarded by the scalar flags only. -/
theorem handleExistingAlarm_units_only_counterexample :
    (detectChanges ⟨1, "123", "A", "T0", "Fire", none, none, none, "T0"⟩
        ⟨some "A", some "Fire", none, none⟩
        (getActiveUnits ⟨[⟨1, "123", "A", "T0", "Fire", none, none, none, "T0"⟩],
          [⟨1, "E1", "T0", none, false⟩], ["E1", "L2"]⟩ 1)
        ["E1", "L2"]).hasAnyChanges = true ∧
    (handleExistingAlarm ⟨[⟨1, "123", "A", "T0", "Fire", none, none, none, "T0"⟩],
        [⟨1, "E1", "T0", none, false⟩], ["E1", "L2"]⟩
        ⟨1, "123", "A", "T0", "Fire", none, none, none, "T0"⟩
        ⟨some "A", some "Fire", none, none⟩ ["E1", "L2"] "T1").alarms =
      [⟨1, "123", "A", "T0", "Fire", none, none, none, "T0"⟩] ∧
    (handleExistingAlarm ⟨[⟨1, "123", "A", "T0", "Fire", none, none, none, "T0"⟩],
        [⟨1, "E1", "T0", none, false⟩], ["E1", "L2"]⟩
        ⟨1, "123", "A", "T0", "Fire", none, none, none, "T0"⟩
        ⟨some "A", some "Fire", none, none⟩ ["E1", "L2"] "T1").assignments ≠
      [⟨1, "E1", "T0", none, false⟩] := by
  decide

/-- Helper: a set scalar flag forces `hasAnyChanges`. -/
theorem scalarFlagged_hasAny (e : Alarm) (c : PartialAlarm) (eu cu : List String)
    (h : scalarFlagged (detectChanges e c eu cu) = true) :
    (detectChanges e c eu cu).hasAnyChanges = true := by
  have hform : (detectChanges e c eu cu).hasAnyChanges =
      (scalarFlagged (detectChanges e c eu cu)
        || decide (0 < (detectChanges e c eu cu).unitsChanged.added.length)
        || decide (0 < (detectChanges e c eu cu).unitsChanged.removed.length)) := rfl
  rw [hform, h]
  simp

/-- Claim C4, amended: for an existing alarm, `last_updated` is refreshed to
the cycle timestamp exactly when some scalar field is flagged changed; a
change consisting only of a unit-set diff mutates assignments but leaves the
alarm row (and hence `last_updated`) unchanged. -/
theorem handleExistingAlarm_last_updated (db : DB) (a : Alarm) (nd : PartialAlarm)
    (units : List String) (now : String) :
    (scalarFlagged (detectChanges a nd (getActiveUnits db a.id) units) = true →
      ∀ row ∈ (handleExistingAlarm db a nd units now).alarms, row.id = a.id →
        row.last_updated = now) ∧
    (scalarFlagged (detectChanges a nd (getActiveUnits db a.id) units) = false →
      (handleExistingAlarm db a nd units now).alarms = db.alarms) := by
  constructor
  · intro hsf row hrow hid
    have hany := scalarFlagged_hasAny a nd (getActiveUnits db a.id) units hsf
    simp only [handleExistingAlarm, hany, hsf, if_true] at hrow
    by_cases hc2 : (detectChanges a nd (getActiveUnits db a.id) units).unitsChanged.added ≠ [] ∨
        (detectChanges a nd (getActiveUnits db a.id) units).unitsChanged.removed ≠ []
    · rw [if_pos hc2] at hrow
      have hframe : (updateUnitAssignments (updateAlarm db a.id
          { last_updated := now
            alarm_type := if (detectChanges a nd (getActiveUnits db a.id) units).callTypeChanged
              then nd.alarm_type else none
            address := if (detectChanges a nd (getActiveUnits db a.id) units).addressChanged
              then nd.address else none
            call_notes := if (detectChanges a nd (getActiveUnits db a.id) units).notesChanged
              then nd.call_notes else none
            call_timeline := if (detectChanges a nd (getActiveUnits db a.id) units).timelineChanged
              then nd.call_timeline else none }) a.id units now).alarms =
          (updateAlarm db a.id
          { last_updated := now
            alarm_type := if (detectChanges a nd (getActiveUnits db a.id) units).callTypeChanged
              then nd.alarm_type else none
            address := if (detectChanges a nd (getActiveUnits db a.id) units).addressChanged
              then nd.address else none
            call_notes := if (detectChanges a nd (getActiveUnits db a.id) units).notesChanged
              then nd.call_notes else none
            call_timeline := if (detectChanges a nd (getActiveUnits db a.id) units).timelineChanged
              then nd.call_timeline else none }).alarms := rfl
      rw [hframe] at hrow
      simp only [updateAlarm] at hrow
      obtain ⟨pre, hpre, heq⟩ := List.mem_map.mp hrow
      by_cases hpid : pre.id = a.id
      · rw [if_pos hpid] at heq
        subst heq
        rfl
      · rw [if_neg hpid] at heq
        subst heq
        exact absurd hid hpid
    · rw [if_neg hc2] at hrow
      simp only [updateAlarm] at hrow
      obtain ⟨pre, hpre, heq⟩ := List.mem_map.mp hrow
      by_cases hpid : pre.id = a.id
      · rw [if_pos hpid] at heq
        subst heq
        rfl
      · rw [if_neg hpid] at heq
        subst heq
        exact absurd hid hpid
  · intro hsf
    by_cases hany : (detectChanges a nd (getActiveUnits db a.id) units).hasAnyChanges = true
    · simp only [handleExistingAlarm, hany, if_true, hsf, Bool.false_eq_true, if_false]
      by_cases hc2 : (detectChanges a nd (getActiveUnits db a.id) units).unitsChanged.added ≠ [] ∨
          (detectChanges a nd (getActiveUnits db a.id) units).unitsChanged.removed ≠ []
      · rw [if_pos hc2]
        rfl
      · rw [if_neg hc2]
    · have hany2 : (detectChanges a nd (getActiveUnits db a.id) units).hasAnyChanges = false :=
        Bool.eq_false_iff.mpr hany
      simp [handleExistingAlarm, hany2]

/-- Witness for C4 at a concrete scalar change: the updated row carries the
cycle timestamp. -/
theorem handleExistingAlarm_last_updated_witness :
    (⟨1, "123", "A", "T0", "Smoke", none, none, none, "T1"⟩ : Alarm).last_updated = "T1" :=
  (handleExistingAlarm_last_updated
      ⟨[⟨1, "123", "A", "T0", "Fire", none, none, none, "T0"⟩],
        [⟨1, "E1", "T0", none, false⟩], ["E1"]⟩
      ⟨1, "123", "A", "T0", "Fire", none, none, none, "T0"⟩
      ⟨some "A", some "Smoke", none, none⟩ ["E1"] "T1").1 (by decide)
    ⟨1, "123", "A", "T0", "Smoke", none, none, none, "T1"⟩ (by decide) (by decide)

/-- Helper: one failing call from a CLOSED breaker either opens the circuit
(threshold reached) or stays CLOSED with the count incremented. -/
theorem failureCall_closed_step (th rt c lt t : Nat) :
    (executeWithCircuitBreaker th rt ⟨CircuitState.CLOSED, c, lt⟩ t
        (none : Option Unit) ()).2.1 =
      if th ≤ c + 1 then ⟨CircuitState.OPEN, c + 1, t⟩
      else ⟨CircuitState.CLOSED, c + 1, t⟩ := by
  by_cases hth : th ≤ c + 1 <;>
    simp [executeWithCircuitBreaker, attemptOperation, recordFailure, openCircuit, hth]

/-- Helper: the list step of `runFailureCalls`. -/
theorem runFailureCalls_cons (th rt : Nat) (b : CircuitBreaker) (t : Nat) (ts : List Nat) :
    runFailureCalls th rt b (t :: ts) =
      runFailureCalls th rt
        (executeWithCircuitBreaker th rt b t (none : Option Unit) ()).2.1 ts := rfl

/-- Helper: from CLOSED with count `c`, a run of failures bringing the count
exactly to the threshold leaves the breaker OPEN. -/
theorem runFailureCalls_closed (th rt : Nat) : ∀ (times : List Nat) (c lt : Nat),
    c + times.length = th → times ≠ [] →
    (runFailureCalls th rt ⟨CircuitState.CLOSED, c, lt⟩ times).state =
      CircuitState.OPEN := by
  intro times
  induction times with
  | nil => intro c lt _ hne; exact absurd rfl hne
  | cons t ts ih =>
    intro c lt h _
    rw [runFailureCalls_cons, failureCall_closed_step]
    cases ts with
    | nil =>
      have hth : th ≤ c + 1 := by
        simp only [List.length_cons, List.length_nil] at h
        omega
      rw [if_pos hth]
      rfl
    | cons t2 ts2 =>
      have hth : ¬ th ≤ c + 1 := by
        simp only [List.length_cons] at h
        omega
      rw [if_neg hth]
      refine ih (c + 1) t ?_ (by simp)
      simp only [List.length_cons] at h ⊢
      omega

/-- Claim C5: from the initial breaker, `threshold` consecutive failing
calls leave the state OPEN; while OPEN with the cooldown not elapsed a call
returns the fallback untouched and unattempted; once the cooldown has
elapsed the next call is attempted (through the HALF_OPEN probe state) and,
when it succeeds, leaves the breaker CLOSED with the failure count reset to
zero; a success in HALF_OPEN closes the circuit and zeroes the count. -/
theorem circuitBreaker_lifecycle (th rt : Nat) (hth : 1 ≤ th) :
    (∀ times : List Nat, times.length = th →
      (runFailureCalls th rt circuitBreakerInit times).state = CircuitState.OPEN) ∧
    (∀ (b : CircuitBreaker) (now : Nat) (op : Option String) (fb : String),
      b.state = CircuitState.OPEN → now - b.lastFailureTime < rt →
      executeWithCircuitBreaker th rt b now op fb = (fb, b, false)) ∧
    (∀ (b : CircuitBreaker) (now : Nat) (op : Option String) (fb : String),
      b.state = CircuitState.OPEN → rt ≤ now - b.lastFailureTime →
      (executeWithCircuitBreaker th rt b now op fb).2.2 = true ∧
      ∀ t, op = some t →
        (executeWithCircuitBreaker th rt b now op fb).2.1.state = CircuitState.CLOSED ∧
        (executeWithCircuitBreaker th rt b now op fb).2.1.failureCount = 0) ∧
    (∀ (b : CircuitBreaker) (now : Nat) (t : String) (fb : String),
      b.state = CircuitState.HALF_OPEN →
      executeWithCircuitBreaker th rt b now (some t) fb =
        (t, { b with state := CircuitState.CLOSED, failureCount := 0 }, true)) := by
  refine ⟨?_, ?_, ?_, ?_⟩
  · intro times hlen
    have hne : times ≠ [] := by
      intro hnil
      rw [hnil] at hlen
      simp at hlen
      omega
    exact runFailureCalls_closed th rt times 0 0 (by omega) hne
  · intro b now op fb hst hlt
    unfold executeWithCircuitBreaker
    rw [if_pos hst, if_neg (by omega)]
  · intro b now op fb hst hcd
    constructor
    · simp [executeWithCircuitBreaker, hst, hcd]
    · intro t hop
      subst hop
      constructor <;>
        simp [executeWithCircuitBreaker, attemptOperation, closeCircuit, hst, hcd]
  · intro b now t fb hst
    simp [executeWithCircuitBreaker, attemptOperation, closeCircuit, hst]

/-- Witness for C5 with threshold 2 and cooldown 5: two failures open the
circuit; a call 2 ms after the failure is rejected untried; a call 5 ms
after is attempted and its success closes the circuit with the count reset;
a success in HALF_OPEN closes the circuit. -/
theorem circuitBreaker_lifecycle_witness :
    (runFailureCalls 2 5 circuitBreakerInit [3, 4]).state = CircuitState.OPEN ∧
    executeWithCircuitBreaker 2 5 ⟨CircuitState.OPEN, 2, 10⟩ 12 (some "x") "fb" =
      ("fb", ⟨CircuitState.OPEN, 2, 10⟩, false) ∧
    (executeWithCircuitBreaker 2 5 ⟨CircuitState.OPEN, 2, 10⟩ 15 (some "y") "fb").2.2
      = true ∧
    (executeWithCircuitBreaker 2 5 ⟨CircuitState.OPEN, 2, 10⟩ 15 (some "y") "fb").2.1.state
      = CircuitState.CLOSED ∧
    executeWithCircuitBreaker 2 5 ⟨CircuitState.HALF_OPEN, 3, 7⟩ 9 (some "z") "fb" =
      ("z", ⟨CircuitState.CLOSED, 0, 7⟩, true) := by
  have h := circuitBreaker_lifecycle 2 5 (by decide)
  exact ⟨h.1 [3, 4] rfl,
    h.2.1 ⟨CircuitState.OPEN, 2, 10⟩ 12 (some "x") "fb" rfl (by decide),
    (h.2.2.1 ⟨CircuitState.OPEN, 2, 10⟩ 15 (some "y") "fb" rfl (by decide)).1,
    ((h.2.2.1 ⟨CircuitState.OPEN, 2, 10⟩ 15 (some "y") "fb" rfl (by decide)).2 "y" rfl).1,
    h.2.2.2 ⟨CircuitState.HALF_OPEN, 3, 7⟩ 9 "z" "fb" rfl⟩

/-- Counterexample for C6: a failure while HALF_OPEN does not transition the
breaker to OPEN — `openCircuit` is guarded by `state === CLOSED` — so the
very next call, 1 ms later and far inside the 100 ms cooldown, still
attempts the operation instead of being rejected. -/
theorem circuitBreaker_halfOpen_failure_counterexample :
    (executeWithCircuitBreaker 5 100 ⟨CircuitState.HALF_OPEN, 0, 0⟩ 10
        (none : Option String) "fb").2.1.state ≠ CircuitState.OPEN ∧
    (executeWithCircuitBreaker 5 100 ⟨CircuitState.HALF_OPEN, 0, 0⟩ 10
        (none : Option String) "fb").2.1 = ⟨CircuitState.HALF_OPEN, 1, 10⟩ ∧
    (executeWithCircuitBreaker 5 100 ⟨CircuitState.HALF_OPEN, 1, 10⟩ 11
        (none : Option String) "fb").2.2 = true := by
  decide

/-- Claim C6, amended: a failure while HALF_OPEN invokes the fallback and
records the failure — count incremented, last-failure time reset to the
failure instant — but the state remains HALF_OPEN (the open transition is
guarded by `state === CLOSED`), so every subsequent call attempts the
operation, whatever time has elapsed. -/
theorem circuitBreaker_halfOpen_failure (th rt : Nat) (b : CircuitBreaker)
    (now later : Nat) (fb : String) (hst : b.state = CircuitState.HALF_OPEN) :
    executeWithCircuitBreaker th rt b now (none : Option String) fb =
      (fb, ⟨CircuitState.HALF_OPEN, b.failureCount + 1, now⟩, true) ∧
    ∀ (op : Option String) (fb2 : String),
      (executeWithCircuitBreaker th rt ⟨CircuitState.HALF_OPEN, b.failureCount + 1, now⟩
        later op fb2).2.2 = true := by
  constructor
  · simp [executeWithCircuitBreaker, attemptOperation, recordFailure, hst]
  · intro op fb2
    cases op <;> simp [executeWithCircuitBreaker]

/-- Witness for the amended C6 at a concrete breaker. -/
theorem circuitBreaker_halfOpen_failure_witness :
    executeWithCircuitBreaker 5 100 ⟨CircuitState.HALF_OPEN, 2, 3⟩ 10
        (none : Option String) "fb" =
      ("fb", ⟨CircuitState.HALF_OPEN, 3, 10⟩, true) :=
  (circuitBreaker_halfOpen_failure 5 100 ⟨CircuitState.HALF_OPEN, 2, 3⟩ 10 0 "fb" rfl).1

/-- Claim C8: `waitForPermission` prunes timestamps older than the 60-second
window first (retained entries are within the window, dropped ones are at
least a window old); at or above the limit it waits exactly
`60000 - (now - oldest) + 100` ms — the head of the retained list is its
oldest entry when the list is time-ordered, and the wait dominates the time
remaining until that oldest entry leaves the window; below the limit it does
not wait; and in either case a fresh timestamp is recorded afterwards. -/
theorem waitForPermission_spec (rl : RateLimiter) (now : Nat)
    (hsorted : rl.requestTimestamps.Pairwise (· ≤ ·)) :
    (∀ t ∈ retainedTimestamps rl now, now - t < 60000) ∧
    (∀ t ∈ rl.requestTimestamps, t ∉ retainedTimestamps rl now → 60000 ≤ now - t) ∧
    (rl.requestsPerMinute ≤ (retainedTimestamps rl now).length →
      (waitForPermission rl now).1 =
        60000 - (now - (retainedTimestamps rl now).headD 0) + 100 ∧
      (∀ t ∈ retainedTimestamps rl now, (retainedTimestamps rl now).headD 0 ≤ t) ∧
      60000 - (now - (retainedTimestamps rl now).headD 0) ≤ (waitForPermission rl now).1) ∧
    ((retainedTimestamps rl now).length < rl.requestsPerMinute →
      (waitForPermission rl now).1 = 0) ∧
    (waitForPermission rl now).2.requestTimestamps =
      retainedTimestamps rl now ++ [now + (waitForPermission rl now).1] := by
  refine ⟨?_, ?_, ?_, ?_, rfl⟩
  · intro t ht
    have := List.mem_filter.mp ht
    simpa using this.2
  · intro t ht hnot
    by_cases hw : now - t < 60000
    · exact absurd (List.mem_filter.mpr ⟨ht, by simpa using hw⟩) hnot
    · omega
  · intro hge
    have hwait : (waitForPermission rl now).1 =
        60000 - (now - (retainedTimestamps rl now).headD 0) + 100 := by
      simp only [waitForPermission]
      rw [if_pos hge]
    refine ⟨hwait, ?_, ?_⟩
    · have hps : (retainedTimestamps rl now).Pairwise (· ≤ ·) :=
        List.Pairwise.filter _ hsorted
      intro t ht
      cases hr : retainedTimestamps rl now with
      | nil =>
        rw [hr] at ht
        exact absurd ht (List.not_mem_nil t)
      | cons h0 ts =>
        rw [hr] at ht hps
        rcases List.mem_cons.mp ht with rfl | hts
        · simp
        · exact (List.pairwise_cons.mp hps).1 t hts
    · rw [hwait]
      omega
  · intro hlt
    simp only [waitForPermission]
    rw [if_neg (by omega)]

/-- Witness for C8: two retained timestamps at the limit of 2 force a wait of
`60000 - (20 - 5) + 100` ms. -/
theorem waitForPermission_spec_witness :
    (waitForPermission ⟨[5, 10], 2⟩ 20).1 = 60000 - (20 - 5) + 100 :=
  ((waitForPermission_spec ⟨[5, 10], 2⟩ 20 (by decide)).2.2.1 (by decide)).1

/-- Helper: a run of at most `maxRetries` retryable errors followed by a
successful attempt makes the loop return the transformed text. -/
theorem retryLoop_ok (mr : Nat) (notes : String) : ∀ (pre : List (Nat × AttemptOutcome))
    (rc : Nat) (rl : RateLimiter) (tN : Nat) (t : String)
    (rest : List (Nat × AttemptOutcome)),
    (∀ p ∈ pre, isRetryErr p.2 = true) → rc + pre.length ≤ mr →
    (retryLoop mr notes rc rl (pre ++ (tN, AttemptOutcome.ok t) :: rest)).1 = t := by
  intro pre
  induction pre with
  | nil =>
    intro rc rl tN t rest _ _
    simp [retryLoop]
  | cons p pre2 ih =>
    intro rc rl tN t rest h hlen
    obtain ⟨n, o⟩ := p
    have ho := h (n, o) (List.mem_cons_self _ _)
    cases o with
    | ok s => simp [isRetryErr] at ho
    | okEmpty => simp [isRetryErr] at ho
    | err r q =>
      cases r with
      | false => simp [isRetryErr] at ho
      | true =>
        simp only [List.cons_append, retryLoop]
        rw [if_pos ⟨trivial, by simp only [List.length_cons] at hlen; omega⟩]
        refine ih (rc + 1) _ tN t rest (fun p2 hp2 => h p2 (List.mem_cons_of_mem _ hp2)) ?_
        simp only [List.length_cons] at hlen
        omega

/-- Helper: a run of retryable errors followed by a terminal error makes the
loop return the original notes. -/
theorem retryLoop_terminal (mr : Nat) (notes : String) : ∀ (pre : List (Nat × AttemptOutcome))
    (rc : Nat) (rl : RateLimiter) (tN : Nat) (q : Bool)
    (rest : List (Nat × AttemptOutcome)),
    (∀ p ∈ pre, isRetryErr p.2 = true) → rc + pre.length ≤ mr →
    (retryLoop mr notes rc rl (pre ++ (tN, AttemptOutcome.err false q) :: rest)).1 = notes := by
  intro pre
  induction pre with
  | nil =>
    intro rc rl tN q rest _ _
    simp [retryLoop]
  | cons p pre2 ih =>
    intro rc rl tN q rest h hlen
    obtain ⟨n, o⟩ := p
    have ho := h (n, o) (List.mem_cons_self _ _)
    cases o with
    | ok s => simp [isRetryErr] at ho
    | okEmpty => simp [isRetryErr] at ho
    | err r q2 =>
      cases r with
      | false => simp [isRetryErr] at ho
      | true =>
        simp only [List.cons_append, retryLoop]
        rw [if_pos ⟨trivial, by simp only [List.length_cons] at hlen; omega⟩]
        refine ih (rc + 1) _ tN q rest (fun p2 hp2 => h p2 (List.mem_cons_of_mem _ hp2)) ?_
        simp only [List.length_cons] at hlen
        omega

/-- Helper: a run of `maxRetries + 1` retryable errors exhausts the budget,
and the loop returns the original notes without looking further. -/
theorem retryLoop_exhaust (mr : Nat) (notes : String) : ∀ (pre : List (Nat × AttemptOutcome))
    (rc : Nat) (rl : RateLimiter) (rest : List (Nat × AttemptOutcome)),
    (∀ p ∈ pre, isRetryErr p.2 = true) → rc ≤ mr → rc + pre.length = mr + 1 →
    (retryLoop mr notes rc rl (pre ++ rest)).1 = notes := by
  intro pre
  induction pre with
  | nil =>
    intro rc rl rest _ hle hlen
    exfalso
    simp at hlen
    omega
  | cons p pre2 ih =>
    intro rc rl rest h hle hlen
    obtain ⟨n, o⟩ := p
    have ho := h (n, o) (List.mem_cons_self _ _)
    cases o with
    | ok s => simp [isRetryErr] at ho
    | okEmpty => simp [isRetryErr] at ho
    | err r q =>
      cases r with
      | false => simp [isRetryErr] at ho
      | true =>
        simp only [List.cons_append, retryLoop]
        by_cases hlt : rc < mr
        · rw [if_pos ⟨trivial, hlt⟩]
          refine ih (rc + 1) _ rest (fun p2 hp2 => h p2 (List.mem_cons_of_mem _ hp2))
            (by omega) ?_
          simp only [List.length_cons] at hlen
          omega
        · rw [if_neg (fun hc => hlt hc.2)]

/-- Claim C7: for non-empty notes the enrichment wrapper always produces a
value (never an error); an open, un-elapsed circuit short-circuits to the
original notes with nothing attempted and no state change; otherwise the
result is the retry loop's, so a run of at most `maxRetries` retryable
failures followed by a success yields the transformed text (in particular,
with `maxRetries = 3`, three failures then a success on the fourth attempt),
while a terminal error or an exhausted retry budget yields the original
notes. -/
theorem transformCallerNotes_outcomes (mr th rt : Nat) (b : CircuitBreaker)
    (rl : RateLimiter) (now : Nat) (notes : String)
    (attempts : List (Nat × AttemptOutcome)) (hnotes : notes ≠ "") :
    (∃ r, (transformCallerNotes mr th rt b rl now notes attempts).1 = some r) ∧
    (b.state = CircuitState.OPEN → now - b.lastFailureTime < rt →
      transformCallerNotes mr th rt b rl now notes attempts = (some notes, b, rl, false)) ∧
    (¬(b.state = CircuitState.OPEN ∧ now - b.lastFailureTime < rt) →
      (transformCallerNotes mr th rt b rl now notes attempts).1 =
        some (retryLoop mr notes 0 rl attempts).1) ∧
    (∀ pre tN t rest, attempts = pre ++ (tN, AttemptOutcome.ok t) :: rest →
      (∀ p ∈ pre, isRetryErr p.2 = true) → pre.length ≤ mr →
      ¬(b.state = CircuitState.OPEN ∧ now - b.lastFailureTime < rt) →
      (transformCallerNotes mr th rt b rl now notes attempts).1 = some t) ∧
    (∀ pre tN q rest, attempts = pre ++ (tN, AttemptOutcome.err false q) :: rest →
      (∀ p ∈ pre, isRetryErr p.2 = true) → pre.length ≤ mr →
      (transformCallerNotes mr th rt b rl now notes attempts).1 = some notes) ∧
    (∀ pre rest, attempts = pre ++ rest →
      (∀ p ∈ pre, isRetryErr p.2 = true) → pre.length = mr + 1 →
      (transformCallerNotes mr th rt b rl now notes attempts).1 = some notes) := by
  have hreject : b.state = CircuitState.OPEN → now - b.lastFailureTime < rt →
      transformCallerNotes mr th rt b rl now notes attempts = (some notes, b, rl, false) := by
    intro h1 h2
    simp only [transformCallerNotes, if_neg hnotes, executeWithCircuitBreaker,
      if_pos h1, if_neg (show ¬ rt ≤ now - b.lastFailureTime by omega)]
  have hrun : ¬(b.state = CircuitState.OPEN ∧ now - b.lastFailureTime < rt) →
      (transformCallerNotes mr th rt b rl now notes attempts).1 =
        some (retryLoop mr notes 0 rl attempts).1 := by
    intro hno
    by_cases h1 : b.state = CircuitState.OPEN
    · have h2 : rt ≤ now - b.lastFailureTime := by
        by_contra hc
        exact hno ⟨h1, by omega⟩
      simp only [transformCallerNotes, if_neg hnotes, executeWithCircuitBreaker,
        if_pos h1, if_pos h2, attemptOperation]
    · simp only [transformCallerNotes, if_neg hnotes, executeWithCircuitBreaker,
        if_neg h1, attemptOperation]
  refine ⟨?_, hreject, hrun, ?_, ?_, ?_⟩
  · by_cases hopen : b.state = CircuitState.OPEN ∧ now - b.lastFailureTime < rt
    · exact ⟨notes, by rw [hreject hopen.1 hopen.2]⟩
    · exact ⟨(retryLoop mr notes 0 rl attempts).1, hrun hopen⟩
  · intro pre tN t rest heq hpre hlen hno
    rw [hrun hno, heq, retryLoop_ok mr notes pre 0 rl tN t rest hpre (by omega)]
  · intro pre tN q rest heq hpre hlen
    by_cases hopen : b.state = CircuitState.OPEN ∧ now - b.lastFailureTime < rt
    · rw [hreject hopen.1 hopen.2]
    · rw [hrun hopen, heq,
        retryLoop_terminal mr notes pre 0 rl tN q rest hpre (by omega)]
  · intro pre rest heq hpre hlen
    by_cases hopen : b.state = CircuitState.OPEN ∧ now - b.lastFailureTime < rt
    · rw [hreject hopen.1 hopen.2]
    · rw [hrun hopen, heq,
        retryLoop_exhaust mr notes pre 0 rl rest hpre (by omega) (by omega)]

/-- Witness for C7: the spec's boundary scenario — three retryable failures
then a success on the fourth attempt with `maxRetries = 3` returns the
transformed text, not the fallback. -/
theorem transformCallerNotes_outcomes_witness :
    (transformCallerNotes 3 5 60000 circuitBreakerInit ⟨[], 60⟩ 0 "orig"
      [(0, AttemptOutcome.err true false), (1, AttemptOutcome.err true false),
        (2, AttemptOutcome.err true false), (3, AttemptOutcome.ok "T")]).1 = some "T" :=
  (transformCallerNotes_outcomes 3 5 60000 circuitBreakerInit ⟨[], 60⟩ 0 "orig"
      [(0, AttemptOutcome.err true false), (1, AttemptOutcome.err true false),
        (2, AttemptOutcome.err true false), (3, AttemptOutcome.ok "T")]
      (by decide)).2.2.2.1
    [(0, AttemptOutcome.err true false), (1, AttemptOutcome.err true false),
      (2, AttemptOutcome.err true false)] 3 "T" [] rfl (by decide) (by decide) (by decide)

/-- Claim C10: empty notes return null immediately — the breaker, the
limiter, and the attempt flag all come back exactly as they went in, with
nothing attempted. -/
theorem transformCallerNotes_empty (mr th rt : Nat) (b : CircuitBreaker)
    (rl : RateLimiter) (now : Nat) (attempts : List (Nat × AttemptOutcome)) :
    transformCallerNotes mr th rt b rl now "" attempts = (none, b, rl, false) := by
  simp [transformCallerNotes]

/-- Witness for C1: on a concrete pair of unit lists the characterization
places the newly appearing unit in `added`. -/
theorem detectChanges_characterization_witness :
    "L2" ∈ (detectChanges ⟨1, "123", "A", "T0", "Fire", none, none, none, "T0"⟩
      ⟨some "A", some "Fire", none, none⟩ ["E1"] ["E1", "L2"]).unitsChanged.added :=
  ((detectChanges_characterization ⟨1, "123", "A", "T0", "Fire", none, none, none, "T0"⟩
      ⟨some "A", some "Fire", none, none⟩ ["E1"] ["E1", "L2"]).2.2.2.2.1 "L2").mpr
    ⟨by decide, by decide⟩
